import Mathlib

/-!
# Verification of the URL-shortener in-memory store and shortcode allocator

Shallow embedding of the core subsystem of the URL-shortener microservice:

* `InMemoryStore` (src/backend/src/models/InMemoryStore.js): an expiring
  key-value store mapping shortcodes to URL records with per-click analytics,
  lazy expiry on every access, and a periodic cleanup sweep.
* `UrlService` (urlService.js): shortcode generation with bounded collision
  retry, expiry-date calculation, and the create-short-URL flow.
* `UrlController` (urlController.js): the HTTP-facing validation and status
  code mapping for `POST /shorturls` and `GET /:shortcode`.

Timestamps are modelled as integers (milliseconds, the value of a JS `Date`);
every JS `new Date()` becomes an explicit `now : Int` parameter.  JS `Map`s
become association lists with `mapGet`/`mapSet`/`mapDelete`.  The JS singleton
store becomes explicit state passing: each operation takes and returns a
`Store`.  A JS field that may be absent (`clickData.ip`, `data.expiresAt`,
request-body fields) becomes an `Option`; `x || d` becomes `Option.getD`.
A stored `expiresAt` is always a `Date` object, hence always truthy, so the
guard `url.expiresAt && new Date() > url.expiresAt` reduces to the comparison.
The JS `TypeError` thrown by `addClick`/`getAnalytics` when the analytics map
lacks an entry that the urls map has (an unguarded `.get(...).field` access)
is modelled by an `Option`-valued result whose `none` means "exception thrown",
paired with the store as mutated up to the throwing statement.
-/

/-- One recorded click (`InMemoryStore.addClick` builds these). -/
structure Click where
  timestamp : Int
  userAgent : String
  ip : String
  referer : String
deriving DecidableEq, Repr

/-- One stored URL record (`InMemoryStore.create` builds these; `id` is set to
the shortcode). -/
structure UrlEntry where
  id : String
  shortcode : String
  originalUrl : String
  expiresAt : Int
  createdAt : Int
  clicks : List Click
deriving DecidableEq, Repr

/-- One analytics aggregate (`{ totalClicks, uniqueClicks }`). -/
structure AnalyticsEntry where
  totalClicks : Nat
  uniqueClicks : Nat
deriving DecidableEq, Repr

/-- The store state: the two JS `Map`s of `InMemoryStore`. -/
structure Store where
  urls : List (String × UrlEntry)
  analytics : List (String × AnalyticsEntry)
deriving DecidableEq, Repr

/-- JS `Map.get`: first binding of the key, if any. -/
def mapGet {α : Type} : List (String × α) → String → Option α
  | [], _ => none
  | p :: rest, k => if p.1 = k then some p.2 else mapGet rest k

/-- JS `Map.set`: replace the binding in place if the key is present, else append. -/
def mapSet {α : Type} : List (String × α) → String → α → List (String × α)
  | [], k, v => [(k, v)]
  | p :: rest, k, v => if p.1 = k then (k, v) :: rest else p :: mapSet rest k v

/-- JS `Map.delete`: remove the binding of the key. -/
def mapDelete {α : Type} : List (String × α) → String → List (String × α)
  | [], _ => []
  | p :: rest, k => if p.1 = k then mapDelete rest k else p :: mapDelete rest k

/-- The pair of deletions `this.urls.delete(shortcode); this.analytics.delete(shortcode)`
that every expiry-eviction site performs. -/
def deleteKey (s : Store) (k : String) : Store :=
  { urls := mapDelete s.urls k, analytics := mapDelete s.analytics k }

/-- The empty store (`new InMemoryStore()`). -/
def emptyStore : Store := { urls := [], analytics := [] }

namespace Store

/-- The operation `InMemoryStore.create`: throws
`'Shortcode already exists'` if `this.urls.has(shortcode)` (note: a plain
presence check, with no expiry test); otherwise inserts a record with an empty
click log, a default expiry of `now + 30 minutes` when `expiresAt` is absent,
and a zeroed analytics entry, returning the record. -/
def create (s : Store) (now : Int) (shortcode originalUrl : String)
    (expiresAt : Option Int) : Except String (UrlEntry × Store) :=
  if (mapGet s.urls shortcode).isSome then
    .error "Shortcode already exists"
  else
    let urlEntry : UrlEntry :=
      { id := shortcode
        shortcode := shortcode
        originalUrl := originalUrl
        expiresAt := expiresAt.getD (now + 30 * 60 * 1000)
        createdAt := now
        clicks := [] }
    .ok (urlEntry,
      { urls := mapSet s.urls shortcode urlEntry
        analytics := mapSet s.analytics shortcode { totalClicks := 0, uniqueClicks := 0 } })

/-- The operation `InMemoryStore.findByShortcode`: `null` if absent; if present
but `new Date() > url.expiresAt`, evict both map entries and return `null`;
otherwise return the record. -/
def findByShortcode (s : Store) (now : Int) (shortcode : String) :
    Option UrlEntry × Store :=
  match mapGet s.urls shortcode with
  | none => (none, s)
  | some url =>
    if url.expiresAt < now then
      (none, deleteKey s shortcode)
    else
      (some url, s)

/-- The click object `addClick` pushes: `clickData.userAgent || ''` etc. -/
structure ClickData where
  userAgent : Option String
  ip : Option String
  referer : Option String
deriving DecidableEq, Repr

def mkClick (now : Int) (cd : ClickData) : Click :=
  { timestamp := now
    userAgent := cd.userAgent.getD ""
    ip := cd.ip.getD ""
    referer := cd.referer.getD "" }

/-- The operation `InMemoryStore.addClick`: `false` if absent;
evict-and-`false` if expired; otherwise push a click onto `url.clicks`, then
increment `analytics.totalClicks` and recompute `uniqueClicks` as the number
of distinct `ip` values over the (just extended) click list, returning `true`.
The analytics update is unguarded: if the analytics map has no entry for the
key, `analytics.totalClicks++` throws a `TypeError` *after* the click was
pushed — modelled as result `none` with only `urls` mutated. -/
def addClick (s : Store) (now : Int) (shortcode : String) (cd : ClickData) :
    Option Bool × Store :=
  match mapGet s.urls shortcode with
  | none => (some false, s)
  | some url =>
    if url.expiresAt < now then
      (some false, deleteKey s shortcode)
    else
      let url' : UrlEntry := { url with clicks := url.clicks ++ [mkClick now cd] }
      match mapGet s.analytics shortcode with
      | none => (none, { s with urls := mapSet s.urls shortcode url' })
      | some a =>
        let a' : AnalyticsEntry :=
          { totalClicks := a.totalClicks + 1
            uniqueClicks := (url'.clicks.map Click.ip).dedup.length }
        (some true,
          { urls := mapSet s.urls shortcode url'
            analytics := mapSet s.analytics shortcode a' })

/-- The record `getAnalytics` returns on success. -/
structure AnalyticsResult where
  shortcode : String
  originalUrl : String
  createdAt : Int
  expiresAt : Int
  totalClicks : Nat
  uniqueClicks : Nat
  clicks : List Click
deriving DecidableEq, Repr

/-- The operation `InMemoryStore.getAnalytics`: `null` if absent;
evict-and-`null` if expired; otherwise read the analytics entry (unguarded:
a missing entry makes `analytics.totalClicks` throw — result `none`, store
unchanged) and return the combined payload. -/
def getAnalytics (s : Store) (now : Int) (shortcode : String) :
    Option (Option AnalyticsResult) × Store :=
  match mapGet s.urls shortcode with
  | none => (some none, s)
  | some url =>
    if url.expiresAt < now then
      (some none, deleteKey s shortcode)
    else
      match mapGet s.analytics shortcode with
      | none => (none, s)
      | some a =>
        (some (some
          { shortcode := shortcode
            originalUrl := url.originalUrl
            createdAt := url.createdAt
            expiresAt := url.expiresAt
            totalClicks := a.totalClicks
            uniqueClicks := a.uniqueClicks
            clicks := url.clicks }), s)

/-- The operation `InMemoryStore.cleanupExpired`: collect every shortcode whose
`expiresAt` has passed, then delete each from both maps; return the count. -/
def cleanupExpired (s : Store) (now : Int) : Nat × Store :=
  let expired := (s.urls.filter (fun p => decide (p.2.expiresAt < now))).map Prod.fst
  (expired.length, expired.foldl deleteKey s)

end Store

/-! ## UrlService (urlService.js)

Randomness (`crypto.randomBytes`) is modelled by oracles: `randomBytes : Nat → Nat`
maps a draw index to the drawn byte, and in `generateUniqueShortcode` an oracle
`gen : Nat → String` maps the attempt index to the code that attempt generates
(each loop iteration calls `this.generateShortcode()` with fresh randomness).
URL normalization via the host `new URL(...)` constructor is modelled by a
function parameter `normalizeUrl : String → Option String`, `none` covering both
a parse failure and a non-http(s) protocol, which `validateAndNormalizeUrl`
surfaces uniformly as the error `'Invalid URL format'` (its protocol throw is
inside its own `try`, so it is caught and replaced). -/

/-- The charset of `UrlService.generateShortcode`. -/
def shortcodeChars : String :=
  "abcdefghijklmnopqrstuvwxyzABCDEFGHIJKLMNOPQRSTUVWXYZ0123456789"

/-- The function `UrlService.generateShortcode` (default length 6): for each position draw a byte
and index the charset by `byte % chars.length`. -/
def generateShortcode (randomBytes : Nat → Nat) (length : Nat := 6) : String :=
  String.mk ((List.range length).map
    (fun i => shortcodeChars.toList.getD (randomBytes i % shortcodeChars.length) 'a'))

/-- Loop body of `UrlService.generateUniqueShortcode`: at attempt index
`attempt` with `fuel` attempts remaining, generate `gen attempt`, look it up
with the store's (evicting) `findByShortcode`; return the code on a miss, else
retry.  The `Nat` component counts generation attempts performed.  `fuel = 0`
is loop exit: the error is thrown. -/
def generateUniqueGo (gen : Nat → String) (now : Int) :
    Nat → Nat → Store → Except Unit String × Store × Nat
  | _, 0, s => (.error (), s, 0)
  | attempt, fuel + 1, s =>
    let code := gen attempt
    match Store.findByShortcode s now code with
    | (none, s1) => (.ok code, s1, 1)
    | (some _, s1) =>
      let (r, s2, n) := generateUniqueGo gen now (attempt + 1) fuel s1
      (r, s2, n + 1)

/-- The function `UrlService.generateUniqueShortcode` (default maxAttempts 10): up to `maxAttempts`
draws, failing with `'Unable to generate unique shortcode after maximum
attempts'` (modelled as `.error ()`) when every draw collides. -/
def generateUniqueShortcode (gen : Nat → String) (s : Store) (now : Int)
    (maxAttempts : Nat := 10) : Except Unit String × Store × Nat :=
  generateUniqueGo gen now 0 maxAttempts s

/-- The function `UrlService.calculateExpiryDate` (default 30 minutes):
`now + validityMinutes * 60 * 1000`. -/
def calculateExpiryDate (now : Int) (validityMinutes : Int := 30) : Int :=
  now + validityMinutes * 60 * 1000

/-- The custom-shortcode format regex (alphanumeric, length 3 to 20) of
`UrlService.createShortUrl`. -/
def validShortcodeFormat (code : String) : Bool :=
  3 ≤ code.length && code.length ≤ 20 && code.toList.all Char.isAlphanum

/-- The object `UrlService.createShortUrl` resolves with. -/
structure CreateResult where
  shortcode : String
  originalUrl : String
  shortUrl : String
  expiresAt : Int
  createdAt : Int
deriving DecidableEq, Repr

/-- The flow `UrlService.createShortUrl` (validity defaulting to 30): normalize the
URL; if a (truthy) custom shortcode is supplied, validate its format and check
occupancy through the store's evicting `findByShortcode`, else draw a unique
code; compute the expiry date; insert through `Store.create`.  Errors are the
exact thrown messages; the store is returned in every case (the JS store is a
process-wide singleton, so mutations made before a throw persist). -/
def serviceCreateShortUrl (normalizeUrl : String → Option String)
    (gen : Nat → String) (baseUrl : String) (s : Store) (now : Int)
    (url : String) (validity : Option Int) (customShortcode : Option String) :
    Except String CreateResult × Store :=
  let v := validity.getD 30
  match normalizeUrl url with
  | none => (.error "Invalid URL format", s)
  | some normalizedUrl =>
    let custom := customShortcode.getD ""
    let afterCode : Except String (String × Store) :=
      if custom ≠ "" then
        if !validShortcodeFormat custom then
          .error "Custom shortcode must be alphanumeric and between 3-20 characters"
        else
          match Store.findByShortcode s now custom with
          | (some _, _) => .error "Custom shortcode already exists"
          | (none, s1) => .ok (custom, s1)
      else
        match generateUniqueShortcode gen s now 10 with
        | (.error _, _, _) =>
          .error "Unable to generate unique shortcode after maximum attempts"
        | (.ok code, s1, _) => .ok (code, s1)
    match afterCode with
    | .error e =>
      -- the only store mutations before a throw are lazy evictions of the
      -- colliding key itself, which the throwing branches do not perform
      (.error e, s)
    | .ok (shortcode, s1) =>
      let expiresAt := calculateExpiryDate now v
      match Store.create s1 now shortcode normalizedUrl (some expiresAt) with
      | .error e => (.error e, s1)
      | .ok (urlDoc, s2) =>
        (.ok { shortcode := shortcode
               originalUrl := normalizedUrl
               shortUrl := baseUrl ++ "/" ++ shortcode
               expiresAt := expiresAt
               createdAt := urlDoc.createdAt }, s2)

/-! ## UrlController (urlController.js) -/

/-- A request body for `POST /shorturls`; `none` models an absent field. -/
structure CreateRequest where
  url : Option String
  validity : Option Int
  shortcode : Option String
deriving DecidableEq, Repr

/-- The responses the two modelled endpoints send. -/
inductive ResponseBody where
  | errorBody (error message : String)
  | createdBody (r : CreateResult)
  | redirectTo (location : String)
deriving DecidableEq, Repr

structure HttpResponse where
  status : Nat
  body : ResponseBody
deriving DecidableEq, Repr

/-- JS `String.prototype.includes`, via `splitOn`. -/
def strIncludes (hay needle : String) : Bool :=
  (hay.splitOn needle).length != 1

/-- The handler `UrlController.createShortUrl`: 400 when `url` is falsy; 400 when a
provided `validity` is `<= 0` or `> 10080`; otherwise delegate to the service
and map a thrown message to 409 (`includes('already exists')`), 400
(`includes('shortcode') || includes('URL')`) or 500, and success to 201. -/
def controllerCreateShortUrl (normalizeUrl : String → Option String)
    (gen : Nat → String) (baseUrl : String) (s : Store) (now : Int)
    (body : CreateRequest) : HttpResponse × Store :=
  if body.url.getD "" = "" then
    ({ status := 400, body := .errorBody "Bad Request" "URL is required" }, s)
  else if (match body.validity with
           | some v => decide (v ≤ 0) || decide (10080 < v)
           | none => false) then
    ({ status := 400
       body := .errorBody "Bad Request"
         "Validity must be a positive number (in minutes) and not exceed 10080 minutes (1 week)" }, s)
  else
    match serviceCreateShortUrl normalizeUrl gen baseUrl s now (body.url.getD "")
        body.validity body.shortcode with
    | (.error msg, s1) =>
      if strIncludes msg "already exists" then
        ({ status := 409, body := .errorBody "Conflict" msg }, s1)
      else if strIncludes msg "shortcode" || strIncludes msg "URL" then
        ({ status := 400, body := .errorBody "Bad Request" msg }, s1)
      else
        ({ status := 500
           body := .errorBody "Internal Server Error" "Failed to create short URL" }, s1)
    | (.ok r, s1) =>
      ({ status := 201, body := .createdBody r }, s1)

/-- The handler `UrlController.redirectToUrl`: 400 on a falsy shortcode; look the code up
through the service (`getUrlByShortcode` = the store's evicting
`findByShortcode`, at time `now1`); 404 when that returns null; 410 when the
controller's own re-check `new Date() > urlData.expiresAt` fires (at the later
instant `now2`); otherwise record the click (its result unchecked; a thrown
`TypeError` is caught by the handler's `try` and mapped to 500) and send the
302 redirect. -/
def controllerRedirect (s : Store) (now1 now2 : Int) (shortcode : String)
    (cd : Store.ClickData) : HttpResponse × Store :=
  if shortcode = "" then
    ({ status := 400, body := .errorBody "Bad Request" "Shortcode is required" }, s)
  else
    match Store.findByShortcode s now1 shortcode with
    | (none, s1) =>
      ({ status := 404, body := .errorBody "Not Found" "Short URL not found" }, s1)
    | (some urlData, s1) =>
      if urlData.expiresAt < now2 then
        ({ status := 410, body := .errorBody "Gone" "Short URL has expired" }, s1)
      else
        match Store.addClick s1 now1 shortcode cd with
        | (none, s2) =>
          ({ status := 500
             body := .errorBody "Internal Server Error" "Failed to redirect" }, s2)
        | (some _, s2) =>
          ({ status := 302, body := .redirectTo urlData.originalUrl }, s2)

/-! ## Invariants, reachability, and concrete fixtures -/

/-- Well-formedness the store maintains: the two maps have the same keys, and
every analytics aggregate matches its record's click log (`totalClicks` is the
log length, `uniqueClicks` the number of distinct `ip` values in it). -/
def StoreWF (s : Store) : Prop :=
  (∀ k, (mapGet s.urls k).isSome = (mapGet s.analytics k).isSome) ∧
  (∀ k u a, mapGet s.urls k = some u → mapGet s.analytics k = some a →
    a.totalClicks = u.clicks.length ∧
    a.uniqueClicks = (u.clicks.map Click.ip).dedup.length)

/-- The stores reachable from process start (`new InMemoryStore()`) by any
sequence of the store's operations: each constructor is one operation call,
taking the state the operation leaves behind (for `create`, only a successful
call changes the state; the `throw` happens before any mutation). -/
inductive Reachable : Store → Prop where
  | init : Reachable emptyStore
  | createOk (s : Store) (now : Int) (c url : String) (e : Option Int)
      (u : UrlEntry) (s' : Store) :
      Reachable s → Store.create s now c url e = .ok (u, s') → Reachable s'
  | find (s : Store) (now : Int) (c : String) :
      Reachable s → Reachable (Store.findByShortcode s now c).2
  | click (s : Store) (now : Int) (c : String) (cd : Store.ClickData) :
      Reachable s → Reachable (Store.addClick s now c cd).2
  | analytics (s : Store) (now : Int) (c : String) :
      Reachable s → Reachable (Store.getAnalytics s now c).2
  | cleanup (s : Store) (now : Int) :
      Reachable s → Reachable (Store.cleanupExpired s now).2

/-- Run a list of `(time, clickData)` calls through `addClick`, requiring
every call to report success (`true`). -/
def runClicks (code : String) : Store → List (Int × Store.ClickData) → Option Store
  | s, [] => some s
  | s, (t, cd) :: rest =>
    match Store.addClick s t code cd with
    | (some true, s1) => runClicks code s1 rest
    | _ => none

/-- A shortcode is *live* in a store at time `now` when it is present and not
yet expired — exactly when `findByShortcode` would return it. -/
def isLive (s : Store) (now : Int) (c : String) : Bool :=
  match mapGet s.urls c with
  | none => false
  | some u => decide (¬ u.expiresAt < now)

/-- Fixture: the record `create(emptyStore, 0, "abc123", "https://example.com", 1000)`
inserts. -/
def sampleEntry : UrlEntry :=
  { id := "abc123", shortcode := "abc123", originalUrl := "https://example.com"
    expiresAt := 1000, createdAt := 0, clicks := [] }

/-- Fixture: a one-record store whose single record expires at t = 1000. -/
def sampleStore : Store :=
  { urls := [("abc123", sampleEntry)]
    analytics := [("abc123", { totalClicks := 0, uniqueClicks := 0 })] }

/-! ## Association-list map lemmas -/

theorem mapGet_mapSet_self {α : Type} (m : List (String × α)) (k : String) (v : α) :
    mapGet (mapSet m k v) k = some v := by
  induction m with
  | nil => simp [mapGet, mapSet]
  | cons p rest ih =>
    by_cases h : p.1 = k
    · simp [mapGet, mapSet, h]
    · simp [mapGet, mapSet, h, ih]

theorem mapGet_mapSet_ne {α : Type} (m : List (String × α)) (k k' : String) (v : α)
    (h : k' ≠ k) : mapGet (mapSet m k v) k' = mapGet m k' := by
  induction m with
  | nil => simp [mapGet, mapSet, Ne.symm h]
  | cons p rest ih =>
    by_cases hp : p.1 = k
    · subst hp
      simp [mapGet, mapSet, Ne.symm h]
    · simp [mapGet, mapSet, hp, ih]

theorem mapGet_mapDelete_self {α : Type} (m : List (String × α)) (k : String) :
    mapGet (mapDelete m k) k = none := by
  induction m with
  | nil => simp [mapGet, mapDelete]
  | cons p rest ih =>
    by_cases h : p.1 = k
    · simp [mapDelete, h, ih]
    · simp [mapGet, mapDelete, h, ih]

theorem mapGet_mapDelete_ne {α : Type} (m : List (String × α)) (k k' : String)
    (h : k' ≠ k) : mapGet (mapDelete m k) k' = mapGet m k' := by
  induction m with
  | nil => simp [mapDelete]
  | cons p rest ih =>
    by_cases hp : p.1 = k
    · subst hp
      simp [mapGet, mapDelete, Ne.symm h, ih]
    · simp [mapGet, mapDelete, hp, ih]

theorem mapGet_mapDelete_sub {α : Type} (m : List (String × α)) (k k' : String) (v : α)
    (h : mapGet (mapDelete m k) k' = some v) : mapGet m k' = some v := by
  by_cases hk : k' = k
  · subst hk
    rw [mapGet_mapDelete_self] at h
    exact absurd h (by simp)
  · rwa [mapGet_mapDelete_ne m k k' hk] at h

/-! ## Characterization of the store operations -/

theorem create_ok_elim (s : Store) (now : Int) (c url : String) (e : Option Int)
    (u : UrlEntry) (s' : Store)
    (h : Store.create s now c url e = .ok (u, s')) :
    mapGet s.urls c = none ∧
    u = { id := c, shortcode := c, originalUrl := url,
          expiresAt := e.getD (now + 30 * 60 * 1000), createdAt := now, clicks := [] } ∧
    s' = { urls := mapSet s.urls c u
           analytics := mapSet s.analytics c { totalClicks := 0, uniqueClicks := 0 } } := by
  unfold Store.create at h
  split at h
  · exact absurd h (by simp)
  · next hfree =>
    simp only [Except.ok.injEq, Prod.mk.injEq] at h
    obtain ⟨hu, hs'⟩ := h
    refine ⟨?_, hu.symm, ?_⟩
    · cases hm : mapGet s.urls c with
      | none => rfl
      | some w => rw [hm] at hfree; simp at hfree
    · rw [← hs', ← hu]

theorem create_occupied (s : Store) (now : Int) (c url : String) (e : Option Int)
    (u : UrlEntry) (h : mapGet s.urls c = some u) :
    Store.create s now c url e = .error "Shortcode already exists" := by
  unfold Store.create
  rw [h]
  rfl

theorem findByShortcode_absent (s : Store) (now : Int) (c : String)
    (h : mapGet s.urls c = none) : Store.findByShortcode s now c = (none, s) := by
  unfold Store.findByShortcode
  rw [h]

theorem findByShortcode_expired (s : Store) (now : Int) (c : String) (u : UrlEntry)
    (h : mapGet s.urls c = some u) (hexp : u.expiresAt < now) :
    Store.findByShortcode s now c = (none, deleteKey s c) := by
  unfold Store.findByShortcode
  rw [h]
  simp [hexp]

theorem findByShortcode_live (s : Store) (now : Int) (c : String) (u : UrlEntry)
    (h : mapGet s.urls c = some u) (hl : ¬ u.expiresAt < now) :
    Store.findByShortcode s now c = (some u, s) := by
  unfold Store.findByShortcode
  rw [h]
  simp [hl]

theorem findByShortcode_fst_none (s : Store) (now : Int) (c : String)
    (h : (Store.findByShortcode s now c).1 = none) :
    mapGet s.urls c = none ∨ ∃ u, mapGet s.urls c = some u ∧ u.expiresAt < now := by
  unfold Store.findByShortcode at h
  cases hm : mapGet s.urls c with
  | none => exact .inl rfl
  | some u =>
    rw [hm] at h
    by_cases hexp : u.expiresAt < now
    · exact .inr ⟨u, rfl, hexp⟩
    · simp [hexp] at h

theorem findByShortcode_snd (s : Store) (now : Int) (c : String) :
    (Store.findByShortcode s now c).2 = s ∨
    (Store.findByShortcode s now c).2 = deleteKey s c := by
  unfold Store.findByShortcode
  cases hm : mapGet s.urls c with
  | none => exact .inl rfl
  | some u =>
    by_cases hexp : u.expiresAt < now
    · simp [hexp]
    · simp [hexp]

theorem addClick_absent (s : Store) (now : Int) (c : String) (cd : Store.ClickData)
    (h : mapGet s.urls c = none) : Store.addClick s now c cd = (some false, s) := by
  unfold Store.addClick
  rw [h]

theorem addClick_expired (s : Store) (now : Int) (c : String) (cd : Store.ClickData)
    (u : UrlEntry) (h : mapGet s.urls c = some u) (hexp : u.expiresAt < now) :
    Store.addClick s now c cd = (some false, deleteKey s c) := by
  unfold Store.addClick
  rw [h]
  simp [hexp]

theorem addClick_live (s : Store) (now : Int) (c : String) (cd : Store.ClickData)
    (u : UrlEntry) (a : AnalyticsEntry)
    (h : mapGet s.urls c = some u) (hl : ¬ u.expiresAt < now)
    (ha : mapGet s.analytics c = some a) :
    Store.addClick s now c cd =
      (some true,
        { urls := mapSet s.urls c { u with clicks := u.clicks ++ [Store.mkClick now cd] }
          analytics := mapSet s.analytics c
            { totalClicks := a.totalClicks + 1
              uniqueClicks :=
                ((u.clicks ++ [Store.mkClick now cd]).map Click.ip).dedup.length } }) := by
  unfold Store.addClick
  rw [h]
  simp [hl, ha]

theorem getAnalytics_absent (s : Store) (now : Int) (c : String)
    (h : mapGet s.urls c = none) : Store.getAnalytics s now c = (some none, s) := by
  unfold Store.getAnalytics
  rw [h]

theorem getAnalytics_expired (s : Store) (now : Int) (c : String) (u : UrlEntry)
    (h : mapGet s.urls c = some u) (hexp : u.expiresAt < now) :
    Store.getAnalytics s now c = (some none, deleteKey s c) := by
  unfold Store.getAnalytics
  rw [h]
  simp [hexp]

theorem getAnalytics_live (s : Store) (now : Int) (c : String) (u : UrlEntry)
    (a : AnalyticsEntry) (h : mapGet s.urls c = some u) (hl : ¬ u.expiresAt < now)
    (ha : mapGet s.analytics c = some a) :
    Store.getAnalytics s now c =
      (some (some
        { shortcode := c, originalUrl := u.originalUrl, createdAt := u.createdAt
          expiresAt := u.expiresAt, totalClicks := a.totalClicks
          uniqueClicks := a.uniqueClicks, clicks := u.clicks }), s) := by
  unfold Store.getAnalytics
  rw [h]
  simp [hl, ha]

/-! ## The urls/analytics cross-map invariant -/

theorem storeWF_analytics_present (s : Store) (hs : StoreWF s) (k : String)
    (u : UrlEntry) (h : mapGet s.urls k = some u) :
    ∃ a, mapGet s.analytics k = some a ∧
      a.totalClicks = u.clicks.length ∧
      a.uniqueClicks = (u.clicks.map Click.ip).dedup.length := by
  obtain ⟨h1, h2⟩ := hs
  have := h1 k
  rw [h] at this
  cases ha : mapGet s.analytics k with
  | none => rw [ha] at this; simp at this
  | some a => exact ⟨a, rfl, h2 k u a h ha⟩

theorem storeWF_empty : StoreWF emptyStore := by
  refine ⟨fun k => rfl, fun k u a hu _ => ?_⟩
  simp [emptyStore, mapGet] at hu

theorem storeWF_deleteKey (s : Store) (hs : StoreWF s) (k : String) :
    StoreWF (deleteKey s k) := by
  obtain ⟨h1, h2⟩ := hs
  constructor
  · intro k'
    by_cases hk : k' = k
    · subst hk
      simp [deleteKey, mapGet_mapDelete_self]
    · simpa [deleteKey, mapGet_mapDelete_ne _ _ _ hk] using h1 k'
  · intro k' u a hu ha
    by_cases hk : k' = k
    · subst hk
      rw [show (deleteKey s k').urls = mapDelete s.urls k' from rfl,
        mapGet_mapDelete_self] at hu
      exact absurd hu (by simp)
    · rw [show (deleteKey s k).urls = mapDelete s.urls k from rfl,
        mapGet_mapDelete_ne _ _ _ hk] at hu
      rw [show (deleteKey s k).analytics = mapDelete s.analytics k from rfl,
        mapGet_mapDelete_ne _ _ _ hk] at ha
      exact h2 k' u a hu ha

theorem storeWF_create (s : Store) (now : Int) (c url : String) (e : Option Int)
    (u : UrlEntry) (s' : Store) (h : Store.create s now c url e = .ok (u, s'))
    (hs : StoreWF s) : StoreWF s' := by
  obtain ⟨hfree, hu, hs'⟩ := create_ok_elim s now c url e u s' h
  obtain ⟨h1, h2⟩ := hs
  subst hs'
  constructor
  · intro k'
    by_cases hk : k' = c
    · subst hk
      simp [mapGet_mapSet_self]
    · simpa [mapGet_mapSet_ne _ _ _ _ hk] using h1 k'
  · intro k' w a hw ha
    by_cases hk : k' = c
    · subst hk
      simp only [mapGet_mapSet_self] at hw ha
      injection hw with hw
      injection ha with ha
      subst hw
      subst hu
      rw [← ha]
      exact ⟨rfl, rfl⟩
    · simp only [mapGet_mapSet_ne _ _ _ _ hk] at hw ha
      exact h2 k' w a hw ha

theorem storeWF_find (s : Store) (now : Int) (c : String) (hs : StoreWF s) :
    StoreWF (Store.findByShortcode s now c).2 := by
  rcases findByShortcode_snd s now c with h | h
  · rw [h]; exact hs
  · rw [h]; exact storeWF_deleteKey s hs c

theorem storeWF_addClick (s : Store) (now : Int) (c : String) (cd : Store.ClickData)
    (hs : StoreWF s) :
    StoreWF (Store.addClick s now c cd).2 ∧ (Store.addClick s now c cd).1 ≠ none := by
  cases hm : mapGet s.urls c with
  | none =>
    rw [addClick_absent s now c cd hm]
    exact ⟨hs, by simp⟩
  | some u =>
    by_cases hexp : u.expiresAt < now
    · rw [addClick_expired s now c cd u hm hexp]
      exact ⟨storeWF_deleteKey s hs c, by simp⟩
    · obtain ⟨a, ha, hat, hau⟩ := storeWF_analytics_present s hs c u hm
      rw [addClick_live s now c cd u a hm hexp ha]
      refine ⟨⟨?_, ?_⟩, by simp⟩
      · intro k'
        by_cases hk : k' = c
        · subst hk
          simp [mapGet_mapSet_self]
        · simpa [mapGet_mapSet_ne _ _ _ _ hk] using hs.1 k'
      · intro k' w b hw hb
        by_cases hk : k' = c
        · subst hk
          simp only [mapGet_mapSet_self] at hw hb
          injection hw with hw
          injection hb with hb
          subst hw
          subst hb
          constructor
          · simp [hat]
          · rfl
        · simp only [mapGet_mapSet_ne _ _ _ _ hk] at hw hb
          exact hs.2 k' w b hw hb

theorem storeWF_getAnalytics (s : Store) (now : Int) (c : String) (hs : StoreWF s) :
    StoreWF (Store.getAnalytics s now c).2 ∧ (Store.getAnalytics s now c).1 ≠ none := by
  cases hm : mapGet s.urls c with
  | none =>
    rw [getAnalytics_absent s now c hm]
    exact ⟨hs, by simp⟩
  | some u =>
    by_cases hexp : u.expiresAt < now
    · rw [getAnalytics_expired s now c u hm hexp]
      exact ⟨storeWF_deleteKey s hs c, by simp⟩
    · obtain ⟨a, ha, _, _⟩ := storeWF_analytics_present s hs c u hm
      rw [getAnalytics_live s now c u a hm hexp ha]
      exact ⟨hs, by simp⟩

theorem storeWF_foldl_deleteKey (l : List String) (s : Store) (hs : StoreWF s) :
    StoreWF (l.foldl deleteKey s) := by
  induction l generalizing s with
  | nil => exact hs
  | cons k rest ih => exact ih (deleteKey s k) (storeWF_deleteKey s hs k)

theorem storeWF_cleanup (s : Store) (now : Int) (hs : StoreWF s) :
    StoreWF (Store.cleanupExpired s now).2 :=
  storeWF_foldl_deleteKey _ s hs

/-- Every reachable store is well-formed. -/
theorem reachable_wf (s : Store) (hr : Reachable s) : StoreWF s := by
  induction hr with
  | init => exact storeWF_empty
  | createOk s now c url e u s' _ h ih => exact storeWF_create s now c url e u s' h ih
  | find s now c _ ih => exact storeWF_find s now c ih
  | click s now c cd _ ih => exact (storeWF_addClick s now c cd ih).1
  | analytics s now c _ ih => exact (storeWF_getAnalytics s now c ih).1
  | cleanup s now _ ih => exact storeWF_cleanup s now ih

/-! ## Claims -/

/-- Claim C3: once `now` is past a stored record's `expiresAt`, every
`findByShortcode`, `addClick` and `getAnalytics` call for that shortcode
returns NotFound (`null`/`false`), the first such call removing the record
(from both maps) before returning; and on a store in which the shortcode is
absent, all three operations return NotFound at every later time while leaving
the store unchanged, so the NotFound answers continue indefinitely. -/
theorem C3_expiry_idempotent (s : Store) (c : String) (u : UrlEntry) (now : Int)
    (cd : Store.ClickData)
    (hmem : mapGet s.urls c = some u) (hexp : u.expiresAt < now) :
    (Store.findByShortcode s now c = (none, deleteKey s c) ∧
     Store.addClick s now c cd = (some false, deleteKey s c) ∧
     Store.getAnalytics s now c = (some none, deleteKey s c) ∧
     mapGet (deleteKey s c).urls c = none) ∧
    (∀ (t : Int) (s' : Store), mapGet s'.urls c = none →
      Store.findByShortcode s' t c = (none, s') ∧
      Store.addClick s' t c cd = (some false, s') ∧
      Store.getAnalytics s' t c = (some none, s')) := by
  constructor
  · exact ⟨findByShortcode_expired s now c u hmem hexp,
      addClick_expired s now c cd u hmem hexp,
      getAnalytics_expired s now c u hmem hexp,
      mapGet_mapDelete_self s.urls c⟩
  · intro t s' habs
    exact ⟨findByShortcode_absent s' t c habs,
      addClick_absent s' t c cd habs,
      getAnalytics_absent s' t c habs⟩

/-- Witness for C3 on a concrete store: the record of `"abc123"` expires at
t = 1000; at t = 1001 all three operations report NotFound and the record is
gone, and they keep reporting NotFound on the evicted store. -/
theorem C3_witness :
    (mapGet sampleStore.urls "abc123" = some sampleEntry ∧
      sampleEntry.expiresAt < 1001) ∧
    ((Store.findByShortcode sampleStore 1001 "abc123" =
        (none, deleteKey sampleStore "abc123") ∧
      Store.addClick sampleStore 1001 "abc123" ⟨none, none, none⟩ =
        (some false, deleteKey sampleStore "abc123") ∧
      Store.getAnalytics sampleStore 1001 "abc123" =
        (some none, deleteKey sampleStore "abc123") ∧
      mapGet (deleteKey sampleStore "abc123").urls "abc123" = none) ∧
     (∀ (t : Int) (s' : Store), mapGet s'.urls "abc123" = none →
       Store.findByShortcode s' t "abc123" = (none, s') ∧
       Store.addClick s' t "abc123" ⟨none, none, none⟩ = (some false, s') ∧
       Store.getAnalytics s' t "abc123" = (some none, s'))) :=
  ⟨⟨by decide, by decide⟩,
    C3_expiry_idempotent sampleStore "abc123" sampleEntry 1001 ⟨none, none, none⟩
      (by decide) (by decide)⟩

/-- Claim C4 fails as stated: the claim says the record is live exactly when
`now < expiresAt`, so at the instant `now = expiresAt` lookup should return
NotFound — but the code only expires on `new Date() > url.expiresAt` (strict),
so at `now = expiresAt` (here 1000) `findByShortcode` still returns the
record. -/
theorem C4_counterexample :
    ¬ (1000 : Int) < sampleEntry.expiresAt ∧
    (Store.findByShortcode sampleStore 1000 "abc123").1 = some sampleEntry := by
  decide

/-- Claim C4 amended: a stored record is returned by `findByShortcode` iff
`now ≤ expiresAt` (equivalently, it is evicted exactly when `now > expiresAt`);
at the boundary instant `now = expiresAt` the record is still live. -/
theorem C4_live_iff_not_past_expiry (s : Store) (now : Int) (c : String)
    (u : UrlEntry) (hmem : mapGet s.urls c = some u) :
    (Store.findByShortcode s now c).1 = some u ↔ now ≤ u.expiresAt := by
  by_cases hexp : u.expiresAt < now
  · rw [findByShortcode_expired s now c u hmem hexp]
    simp [hexp, Int.not_le.mpr hexp]
  · rw [findByShortcode_live s now c u hmem hexp]
    simp [Int.not_lt.mp hexp]

/-- Witness for C4 (amended) at the boundary instant `now = expiresAt = 1000`:
the lookup still returns the record. -/
theorem C4_witness :
    (Store.findByShortcode sampleStore 1000 "abc123").1 = some sampleEntry :=
  (C4_live_iff_not_past_expiry sampleStore 1000 "abc123" sampleEntry
    (by decide)).mpr (by decide)

theorem validShortcodeFormat_nonempty (c : String)
    (h : validShortcodeFormat c = true) : c ≠ "" := by
  intro hc
  subst hc
  simp [validShortcodeFormat] at h

/-- Claim C1 fails as stated: `InMemoryStore.create` checks raw key presence
(`this.urls.has`) with no expiry test, so a stale occupant — here `"abc123"`,
expired at t = 1000, with the call at t = 2000 — still makes the store's
`create` throw `'Shortcode already exists'`. -/
theorem C1_counterexample :
    sampleEntry.expiresAt < 2000 ∧
    mapGet sampleStore.urls "abc123" = some sampleEntry ∧
    Store.create sampleStore 2000 "abc123" "https://other.com" (some 3000) =
      .error "Shortcode already exists" :=
  ⟨by decide, by decide, rfl⟩

/-- Claim C1 amended: the store's own `create` rejects any occupant, live or
stale; the lazy eviction the claim describes happens one layer up, in
`UrlService.createShortUrl`, which calls the store's `findByShortcode` before
`create`.  Creating through the service with a custom shortcode whose stored
occupant has expired (`now > expiresAt`) therefore succeeds: the stale entry
is evicted and a fresh record with an empty click log is inserted and
returned. -/
theorem C1_service_create_evicts_stale (normalizeUrl : String → Option String)
    (gen : Nat → String) (baseUrl : String) (s : Store) (now : Int)
    (c url normUrl : String) (u : UrlEntry) (v : Option Int)
    (hmem : mapGet s.urls c = some u) (hexp : u.expiresAt < now)
    (hfmt : validShortcodeFormat c = true) (hnorm : normalizeUrl url = some normUrl) :
    serviceCreateShortUrl normalizeUrl gen baseUrl s now url v (some c) =
      (.ok { shortcode := c, originalUrl := normUrl,
             shortUrl := baseUrl ++ "/" ++ c,
             expiresAt := calculateExpiryDate now (v.getD 30), createdAt := now },
       { urls := mapSet (deleteKey s c).urls c
           { id := c, shortcode := c, originalUrl := normUrl,
             expiresAt := calculateExpiryDate now (v.getD 30), createdAt := now,
             clicks := [] }
         analytics :=
           mapSet (deleteKey s c).analytics c { totalClicks := 0, uniqueClicks := 0 } }) ∧
    mapGet (mapSet (deleteKey s c).urls c
        { id := c, shortcode := c, originalUrl := normUrl,
          expiresAt := calculateExpiryDate now (v.getD 30), createdAt := now,
          clicks := [] }) c =
      some { id := c, shortcode := c, originalUrl := normUrl,
             expiresAt := calculateExpiryDate now (v.getD 30), createdAt := now,
             clicks := [] } := by
  have hne : c ≠ "" := validShortcodeFormat_nonempty c hfmt
  refine ⟨?_, mapGet_mapSet_self _ _ _⟩
  simp only [serviceCreateShortUrl, hnorm, Option.getD_some, hne, hfmt,
    findByShortcode_expired s now c u hmem hexp, ne_eq, not_false_eq_true, if_true,
    Bool.not_true, Bool.false_eq_true, if_false]
  rw [show Store.create (deleteKey s c) now c normUrl
      (some (calculateExpiryDate now (v.getD 30))) = _ from rfl]
  unfold Store.create
  rw [show (deleteKey s c).urls = mapDelete s.urls c from rfl, mapGet_mapDelete_self]
  rfl

/-- Witness for C1 (amended) on the concrete stale store: at t = 2000 the
service-level create with custom code `"abc123"` succeeds and installs a fresh
empty-click record. -/
theorem C1_witness :
    serviceCreateShortUrl (fun u => some u) (fun _ => "x") "http://localhost:5000"
        sampleStore 2000 "https://other.com" none (some "abc123") =
      (.ok { shortcode := "abc123", originalUrl := "https://other.com",
             shortUrl := "http://localhost:5000/abc123",
             expiresAt := calculateExpiryDate 2000 ((none : Option Int).getD 30),
             createdAt := 2000 },
       { urls := mapSet (deleteKey sampleStore "abc123").urls "abc123"
           { id := "abc123", shortcode := "abc123", originalUrl := "https://other.com",
             expiresAt := calculateExpiryDate 2000 ((none : Option Int).getD 30),
             createdAt := 2000, clicks := [] }
         analytics := mapSet (deleteKey sampleStore "abc123").analytics "abc123"
           { totalClicks := 0, uniqueClicks := 0 } }) ∧
    mapGet (mapSet (deleteKey sampleStore "abc123").urls "abc123"
        { id := "abc123", shortcode := "abc123", originalUrl := "https://other.com",
          expiresAt := calculateExpiryDate 2000 ((none : Option Int).getD 30),
          createdAt := 2000, clicks := [] }) "abc123" =
      some { id := "abc123", shortcode := "abc123", originalUrl := "https://other.com",
             expiresAt := calculateExpiryDate 2000 ((none : Option Int).getD 30),
             createdAt := 2000, clicks := [] } :=
  C1_service_create_evicts_stale (fun u => some u) (fun _ => "x") "http://localhost:5000"
    sampleStore 2000 "abc123" "https://other.com" "https://other.com" sampleEntry none
    (by decide) (by decide) (by decide) rfl

/-- Claim C2 (code bug): the claim — and the repository's own README and the
controller's dedicated 410 branch — say a redirect of an expired shortcode
returns `410 Gone`.  But `getUrlByShortcode` goes through the store's
`findByShortcode`, which lazily evicts the expired record and returns null, so
the controller takes the 404 branch instead; its 410 check is reachable only
when the record expires between the store lookup and the controller's re-check.
Concretely: `"abc123"` expired at t = 1000; the redirect request at t = 2000
answers 404, not 410. -/
theorem C2_expired_redirect_is_404 :
    sampleEntry.expiresAt < 2000 ∧
    mapGet sampleStore.urls "abc123" = some sampleEntry ∧
    controllerRedirect sampleStore 2000 2000 "abc123" ⟨none, none, none⟩ =
      ({ status := 404, body := .errorBody "Not Found" "Short URL not found" },
       deleteKey sampleStore "abc123") ∧
    (controllerRedirect sampleStore 2000 2000 "abc123" ⟨none, none, none⟩).1.status ≠
      410 :=
  ⟨by decide, by decide, rfl, by decide⟩

theorem isLive_absent (s : Store) (now : Int) (c : String)
    (h : mapGet s.urls c = none) : isLive s now c = false := by
  unfold isLive
  rw [h]

theorem isLive_true_elim (s : Store) (now : Int) (c : String)
    (h : isLive s now c = true) :
    ∃ u, mapGet s.urls c = some u ∧ ¬ u.expiresAt < now := by
  unfold isLive at h
  cases hm : mapGet s.urls c with
  | none => rw [hm] at h; simp at h
  | some u =>
    rw [hm] at h
    exact ⟨u, rfl, by simpa using h⟩

theorem isLive_false_of_find_none (s : Store) (now : Int) (c : String)
    (h : (Store.findByShortcode s now c).1 = none) : isLive s now c = false := by
  rcases findByShortcode_fst_none s now c h with habs | ⟨u, hm, hexp⟩
  · exact isLive_absent s now c habs
  · unfold isLive
    rw [hm]
    simp [hexp]

theorem findByShortcode_delete_expired (s : Store) (now : Int) (c : String) :
    (Store.findByShortcode s now c).2 = s ∨
    ∃ w, mapGet s.urls c = some w ∧ w.expiresAt < now ∧
      (Store.findByShortcode s now c).2 = deleteKey s c := by
  unfold Store.findByShortcode
  cases hm : mapGet s.urls c with
  | none => exact .inl rfl
  | some w =>
    by_cases hexp : w.expiresAt < now
    · exact .inr ⟨w, rfl, hexp, by simp [hexp]⟩
    · simp [hexp]

/-- A shortcode dead after a `findByShortcode` call was already dead before it
(the call only ever deletes an expired entry). -/
theorem isLive_false_before_find (s : Store) (now : Int) (c k : String)
    (h : isLive (Store.findByShortcode s now c).2 now k = false) :
    isLive s now k = false := by
  rcases findByShortcode_delete_expired s now c with hid | ⟨w, hm, hexp, hdel⟩
  · rwa [hid] at h
  · rw [hdel] at h
    by_cases hk : k = c
    · subst hk
      unfold isLive
      rw [hm]
      simp [hexp]
    · unfold isLive at h ⊢
      rwa [show (deleteKey s c).urls = mapDelete s.urls c from rfl,
        mapGet_mapDelete_ne _ _ _ hk] at h

theorem findByShortcode_none_absent_after (s : Store) (now : Int) (c : String)
    (s1 : Store) (h : Store.findByShortcode s now c = (none, s1)) :
    mapGet s1.urls c = none := by
  rcases findByShortcode_fst_none s now c (by rw [h]) with habs | ⟨u, hm, hexp⟩
  · have h2 := findByShortcode_absent s now c habs
    rw [h] at h2
    injection h2 with _ h2
    rw [h2]
    exact habs
  · have h2 := findByShortcode_expired s now c u hm hexp
    rw [h] at h2
    injection h2 with _ h2
    rw [h2]
    exact mapGet_mapDelete_self s.urls c

theorem generateUniqueGo_ok_elim (gen : Nat → String) (now : Int) :
    ∀ (fuel attempt : Nat) (s s' : Store) (code : String) (n : Nat),
      generateUniqueGo gen now attempt fuel s = (.ok code, s', n) →
      isLive s now code = false ∧ mapGet s'.urls code = none := by
  intro fuel
  induction fuel with
  | zero =>
    intro attempt s s' code n h
    simp [generateUniqueGo] at h
  | succ fuel ih =>
    intro attempt s s' code n h
    simp only [generateUniqueGo] at h
    cases hfind : Store.findByShortcode s now (gen attempt) with
    | mk res s1 =>
      cases res with
      | none =>
        rw [hfind] at h
        simp only [Prod.mk.injEq, Except.ok.injEq] at h
        obtain ⟨hcode, hs1, _⟩ := h
        subst hcode
        refine ⟨isLive_false_of_find_none s now (gen attempt) (by rw [hfind]), ?_⟩
        rw [← hs1]
        exact findByShortcode_none_absent_after s now (gen attempt) s1 hfind
      | some w =>
        rw [hfind] at h
        cases hrec : generateUniqueGo gen now (attempt + 1) fuel s1 with
        | mk r rest =>
          cases rest with
          | mk s2 m =>
            have hh : ((generateUniqueGo gen now (attempt + 1) fuel s1).1,
                (generateUniqueGo gen now (attempt + 1) fuel s1).2.1,
                (generateUniqueGo gen now (attempt + 1) fuel s1).2.2 + 1) =
                ((Except.ok code : Except Unit String), s', n) := h
            rw [hrec] at hh
            have h' : (r, s2, m + 1) = ((Except.ok code : Except Unit String), s', n) := hh
            simp only [Prod.mk.injEq] at h'
            obtain ⟨hr, hs2, _⟩ := h' 
            obtain ⟨hlive1, habs⟩ :=
              ih (attempt + 1) s1 s2 code m (by rw [hrec, hr])
            refine ⟨?_, by rw [← hs2]; exact habs⟩
            have hlive1' :
                isLive (Store.findByShortcode s now (gen attempt)).2 now code = false := by
              rw [hfind]
              exact hlive1
            exact isLive_false_before_find s now (gen attempt) code hlive1'

theorem generateUniqueGo_all_live (gen : Nat → String) (now : Int) :
    ∀ (fuel attempt : Nat) (s : Store),
      (∀ i, attempt ≤ i → i < attempt + fuel → isLive s now (gen i) = true) →
      generateUniqueGo gen now attempt fuel s = (.error (), s, fuel) := by
  intro fuel
  induction fuel with
  | zero => intro attempt s _; rfl
  | succ fuel ih =>
    intro attempt s hall
    obtain ⟨u, hm, hexp⟩ := isLive_true_elim s now (gen attempt)
      (hall attempt le_rfl (by omega))
    have hstep : generateUniqueGo gen now attempt (fuel + 1) s =
        ((generateUniqueGo gen now (attempt + 1) fuel s).1,
         (generateUniqueGo gen now (attempt + 1) fuel s).2.1,
         (generateUniqueGo gen now (attempt + 1) fuel s).2.2 + 1) := by
      simp only [generateUniqueGo]
      rw [findByShortcode_live s now (gen attempt) u hm hexp]
    rw [hstep, ih (attempt + 1) s (fun i h1 h2 => hall i (by omega) (by omega))]

/-- Claim C5: the allocator never returns a shortcode that is live in the store
(neither in the store it was given nor in the store it leaves behind — the
code it returns is absent from the latter), and against a store in which every
generated code is live it fails (`ExhaustedAttempts`, the thrown
`'Unable to generate unique shortcode after maximum attempts'`) after
performing exactly `maxAttempts` generation attempts, leaving the store
untouched and never looping further; the `maxAttempts` default is 10. -/
theorem C5_generateUnique_spec (gen : Nat → String) (s : Store) (now : Int)
    (m : Nat) :
    (∀ (code : String) (s' : Store) (n : Nat),
      generateUniqueShortcode gen s now m = (.ok code, s', n) →
      isLive s now code = false ∧ mapGet s'.urls code = none ∧
        isLive s' now code = false) ∧
    ((∀ i, i < m → isLive s now (gen i) = true) →
      generateUniqueShortcode gen s now m = (.error (), s, m)) ∧
    generateUniqueShortcode gen s now = generateUniqueGo gen now 0 10 s := by
  refine ⟨?_, ?_, rfl⟩
  · intro code s' n h
    obtain ⟨h1, h2⟩ := generateUniqueGo_ok_elim gen now m 0 s s' code n h
    exact ⟨h1, h2, isLive_absent s' now code h2⟩
  · intro hall
    exact generateUniqueGo_all_live gen now m 0 s (fun i _ h2 => hall i (by omega))

/-- Witness for C5 on a concrete always-colliding store: every attempt draws
`"abc123"`, which is live in `sampleStore` at t = 500, so the call with the
default `maxAttempts` fails after exactly 10 attempts with the store
unchanged. -/
theorem C5_witness :
    generateUniqueShortcode (fun _ => "abc123") sampleStore 500 =
      (.error (), sampleStore, 10) :=
  (C5_generateUnique_spec (fun _ => "abc123") sampleStore 500 10).2.1
    (fun i _ => by decide)

/-- Claim C10: on every reachable store, a shortcode is a key of the `urls` map
iff it is a key of the `analytics` map, every stored analytics `totalClicks`
equals the length of that record's `clicks` array, and consequently
`addClick`'s unguarded analytics update never dereferences a missing entry
(it never throws, i.e. never returns the `none` that models the
`TypeError`). -/
theorem C10_urls_analytics_in_sync (s : Store) (hr : Reachable s) :
    (∀ k, (mapGet s.urls k).isSome = (mapGet s.analytics k).isSome) ∧
    (∀ k u a, mapGet s.urls k = some u → mapGet s.analytics k = some a →
      a.totalClicks = u.clicks.length) ∧
    (∀ (now : Int) (c : String) (cd : Store.ClickData),
      (Store.addClick s now c cd).1 ≠ none) := by
  have hwf := reachable_wf s hr
  exact ⟨hwf.1, fun k u a hu ha => (hwf.2 k u a hu ha).1,
    fun now c cd => (storeWF_addClick s now c cd hwf).2⟩

/-- Witness for C10 on the concrete reachable store obtained by one `create`:
the two maps are keyed identically, counts agree, and `addClick` cannot
throw. -/
theorem C10_witness :
    (∀ k, (mapGet sampleStore.urls k).isSome = (mapGet sampleStore.analytics k).isSome) ∧
    (∀ k u a, mapGet sampleStore.urls k = some u →
      mapGet sampleStore.analytics k = some a → a.totalClicks = u.clicks.length) ∧
    (∀ (now : Int) (c : String) (cd : Store.ClickData),
      (Store.addClick sampleStore now c cd).1 ≠ none) :=
  C10_urls_analytics_in_sync sampleStore
    (Reachable.createOk emptyStore 0 "abc123" "https://example.com" (some 1000)
      sampleEntry sampleStore Reachable.init rfl)

/-- Claim C6: for a live record, the unique-clicker count that `getAnalytics`
reports equals the cardinality of the set of distinct `ip` values across the
record's recorded clicks, on every reachable store. -/
theorem C6_unique_clicker_count (s : Store) (hr : Reachable s) (now : Int)
    (c : String) (r : Store.AnalyticsResult) (s' : Store)
    (h : Store.getAnalytics s now c = (some (some r), s')) :
    r.uniqueClicks = (r.clicks.map Click.ip).toFinset.card := by
  have hwf := reachable_wf s hr
  cases hm : mapGet s.urls c with
  | none =>
    rw [getAnalytics_absent s now c hm] at h
    injection h with h1 _
    simp at h1
  | some u =>
    by_cases hexp : u.expiresAt < now
    · rw [getAnalytics_expired s now c u hm hexp] at h
      injection h with h1 _
      simp at h1
    · obtain ⟨a, ha, _, hau⟩ := storeWF_analytics_present s hwf c u hm
      rw [getAnalytics_live s now c u a hm hexp ha] at h
      injection h with h1 _
      injection h1 with h1
      injection h1 with h1
      rw [← h1, List.card_toFinset]
      exact hau

/-- Witness for C6: after two clicks from the same IP on the concrete
reachable store, the reported unique-clicker count (1) is the cardinality of
the set of distinct click IPs. -/
theorem C6_witness :
    ({ shortcode := "abc123", originalUrl := "https://example.com", createdAt := 0,
       expiresAt := 1000, totalClicks := 2, uniqueClicks := 1,
       clicks := [{ timestamp := 10, userAgent := "", ip := "1.1.1.1", referer := "" },
                  { timestamp := 20, userAgent := "", ip := "1.1.1.1", referer := "" }] } :
      Store.AnalyticsResult).uniqueClicks =
      (({ shortcode := "abc123", originalUrl := "https://example.com", createdAt := 0,
          expiresAt := 1000, totalClicks := 2, uniqueClicks := 1,
          clicks := [{ timestamp := 10, userAgent := "", ip := "1.1.1.1", referer := "" },
                     { timestamp := 20, userAgent := "", ip := "1.1.1.1", referer := "" }] } :
        Store.AnalyticsResult).clicks.map Click.ip).toFinset.card :=
  C6_unique_clicker_count
    ((Store.addClick ((Store.addClick sampleStore 10 "abc123"
        ⟨none, some "1.1.1.1", none⟩).2) 20 "abc123" ⟨none, some "1.1.1.1", none⟩).2)
    (Reachable.click ((Store.addClick sampleStore 10 "abc123"
        ⟨none, some "1.1.1.1", none⟩).2) 20 "abc123" ⟨none, some "1.1.1.1", none⟩
      (Reachable.click sampleStore 10 "abc123" ⟨none, some "1.1.1.1", none⟩
        (Reachable.createOk emptyStore 0 "abc123" "https://example.com" (some 1000)
          sampleEntry sampleStore Reachable.init rfl)))
    30 "abc123"
    { shortcode := "abc123", originalUrl := "https://example.com", createdAt := 0,
      expiresAt := 1000, totalClicks := 2, uniqueClicks := 1,
      clicks := [{ timestamp := 10, userAgent := "", ip := "1.1.1.1", referer := "" },
                 { timestamp := 20, userAgent := "", ip := "1.1.1.1", referer := "" }] }
    ((Store.addClick ((Store.addClick sampleStore 10 "abc123"
        ⟨none, some "1.1.1.1", none⟩).2) 20 "abc123" ⟨none, some "1.1.1.1", none⟩).2)
    rfl

theorem addClick_false_elim (s : Store) (now : Int) (c : String)
    (cd : Store.ClickData) (s2 : Store)
    (h : Store.addClick s now c cd = (some false, s2)) :
    s2 = s ∨ s2 = deleteKey s c := by
  cases hm : mapGet s.urls c with
  | none =>
    rw [addClick_absent s now c cd hm] at h
    injection h with _ h
    exact .inl h.symm
  | some u =>
    by_cases hexp : u.expiresAt < now
    · rw [addClick_expired s now c cd u hm hexp] at h
      injection h with _ h
      exact .inr h.symm
    · cases ha : mapGet s.analytics c with
      | none =>
        unfold Store.addClick at h
        rw [hm] at h
        simp [hexp, ha] at h
      | some a =>
        rw [addClick_live s now c cd u a hm hexp ha] at h
        injection h with h1 _
        simp at h1

/-- Claim C7: running a list of `addClick` calls, all required to succeed, on a
record that stays live for each call time, extends its click log by exactly
one `mkClick` per call in call order (so `N` calls on a fresh record give `N`
clicks) and raises `totalClicks` by the number of calls; and an `addClick`
that fails (missing or expired key) leaves the store either unchanged or with
the target key evicted — it never appends a click and never increments a
counter. -/
theorem C7_click_accumulation (s : Store) (c : String) (u : UrlEntry)
    (a : AnalyticsEntry) (l : List (Int × Store.ClickData))
    (hmem : mapGet s.urls c = some u) (ha : mapGet s.analytics c = some a)
    (hlive : ∀ p ∈ l, ¬ u.expiresAt < p.1) :
    (∃ s', runClicks c s l = some s' ∧
      mapGet s'.urls c =
        some { u with clicks := u.clicks ++ l.map (fun p => Store.mkClick p.1 p.2) } ∧
      ∃ a', mapGet s'.analytics c = some a' ∧
        a'.totalClicks = a.totalClicks + l.length) ∧
    (∀ (s0 : Store) (t : Int) (c0 : String) (cd : Store.ClickData) (s2 : Store),
      Store.addClick s0 t c0 cd = (some false, s2) → s2 = s0 ∨ s2 = deleteKey s0 c0) := by
  refine ⟨?_, fun s0 t c0 cd s2 h => addClick_false_elim s0 t c0 cd s2 h⟩
  induction l generalizing s u a with
  | nil =>
    refine ⟨s, rfl, ?_, a, ha, by simp⟩
    simpa using hmem
  | cons p rest ih =>
    obtain ⟨t, cd⟩ := p
    have hl : ¬ u.expiresAt < t := hlive (t, cd) (by simp)
    have hstep := addClick_live s t c cd u a hmem hl ha
    obtain ⟨s', hrun, hu', a', ha', hcount⟩ :=
      ih (({ urls := mapSet s.urls c { u with clicks := u.clicks ++ [Store.mkClick t cd] }
             analytics := mapSet s.analytics c
               { totalClicks := a.totalClicks + 1
                 uniqueClicks :=
                   (({ u with clicks := u.clicks ++ [Store.mkClick t cd] } :
                     UrlEntry).clicks.map Click.ip).dedup.length } } : Store))
        { u with clicks := u.clicks ++ [Store.mkClick t cd] }
        { totalClicks := a.totalClicks + 1
          uniqueClicks :=
            (({ u with clicks := u.clicks ++ [Store.mkClick t cd] } :
              UrlEntry).clicks.map Click.ip).dedup.length }
        (mapGet_mapSet_self _ _ _) (mapGet_mapSet_self _ _ _)
        (fun q hq => hlive q (by simp [hq]))
    refine ⟨s', ?_, ?_, a', ha', ?_⟩
    · unfold runClicks
      rw [hstep]
      exact hrun
    · rw [hu']
      simp
    · rw [hcount]
      simp
      omega

/-- Witness for C7: two successful clicks (t = 10 and t = 20, both before the
expiry 1000) on the concrete fresh record extend its log to the two pushed
clicks in call order and bring `totalClicks` from 0 to 2. -/
theorem C7_witness :
    (∃ s', runClicks "abc123" sampleStore
        [(10, ⟨none, some "1.1.1.1", none⟩), (20, ⟨none, some "2.2.2.2", none⟩)] =
          some s' ∧
      mapGet s'.urls "abc123" =
        some { sampleEntry with clicks := sampleEntry.clicks ++
          ([((10 : Int), (⟨none, some "1.1.1.1", none⟩ : Store.ClickData)),
            (20, ⟨none, some "2.2.2.2", none⟩)].map
              (fun p => Store.mkClick p.1 p.2)) } ∧
      ∃ a', mapGet s'.analytics "abc123" = some a' ∧
        a'.totalClicks =
          ({ totalClicks := 0, uniqueClicks := 0 } : AnalyticsEntry).totalClicks +
            ([((10 : Int), (⟨none, some "1.1.1.1", none⟩ : Store.ClickData)),
              (20, ⟨none, some "2.2.2.2", none⟩)] :
              List (Int × Store.ClickData)).length) ∧
    (∀ (s0 : Store) (t : Int) (c0 : String) (cd : Store.ClickData) (s2 : Store),
      Store.addClick s0 t c0 cd = (some false, s2) → s2 = s0 ∨ s2 = deleteKey s0 c0) :=
  C7_click_accumulation sampleStore "abc123" sampleEntry
    { totalClicks := 0, uniqueClicks := 0 }
    [(10, ⟨none, some "1.1.1.1", none⟩), (20, ⟨none, some "2.2.2.2", none⟩)]
    (by decide) (by decide) (by decide)

/-- Claim C8: for every valid input, a successful service-level create followed
immediately (same instant) by a lookup of the assigned shortcode returns a
record whose originalUrl, createdAt and expiresAt agree with the create
response, with an empty click log. -/
theorem C8_create_then_find (normalizeUrl : String → Option String)
    (gen : Nat → String) (baseUrl : String) (s : Store) (now : Int)
    (url : String) (validity : Option Int) (custom : Option String)
    (r : CreateResult) (s' : Store)
    (hv : 0 < validity.getD 30)
    (h : serviceCreateShortUrl normalizeUrl gen baseUrl s now url validity custom =
      (.ok r, s')) :
    ∃ u, Store.findByShortcode s' now r.shortcode = (some u, s') ∧
      u.originalUrl = r.originalUrl ∧ u.createdAt = r.createdAt ∧
      u.expiresAt = r.expiresAt ∧ u.clicks = [] := by
  simp only [serviceCreateShortUrl] at h
  split at h
  · exact absurd h (by simp)
  · split at h
    · exact absurd h (by simp)
    · split at h
      · exact absurd h (by simp)
      · rename_i xa nu hn ac code s1 hAC xb doc s2 hc
        obtain ⟨hfree, hdoc, hs2⟩ := create_ok_elim s1 now code nu _ doc s2 hc
        injection h with h1 h2
        injection h1 with h1
        have hrc : r.shortcode = code := by rw [← h1]
        have hru : r.originalUrl = nu := by rw [← h1]
        have hre : r.expiresAt = calculateExpiryDate now (validity.getD 30) := by
          rw [← h1]
        have hrca : r.createdAt = doc.createdAt := by rw [← h1]
        have hmem2 : mapGet s'.urls code = some doc := by
          rw [← h2, hs2]
          exact mapGet_mapSet_self _ _ _
        have hdocexp : doc.expiresAt = calculateExpiryDate now (validity.getD 30) := by
          rw [hdoc]
          rfl
        have hpos : (0 : Int) < validity.getD 30 * 60 * 1000 :=
          mul_pos (mul_pos hv (by norm_num)) (by norm_num)
        have hnl : ¬ doc.expiresAt < now := by
          rw [hdocexp]
          unfold calculateExpiryDate
          linarith
        refine ⟨doc, ?_, ?_, ?_, ?_, ?_⟩
        · rw [hrc]
          exact findByShortcode_live s' now code doc hmem2 hnl
        · rw [hru, hdoc]
        · rw [hrca]
        · rw [hre, hdocexp]
        · rw [hdoc]

/-- Witness for C8: creating `"abc12"` in the empty store at t = 0 (default
validity 30 minutes) and looking it up at t = 0 returns the just-created
record with empty clicks. -/
theorem C8_witness :
    ∃ u, Store.findByShortcode
        ({ urls := [("abc12",
             { id := "abc12", shortcode := "abc12",
               originalUrl := "https://example.com",
               expiresAt := calculateExpiryDate 0 ((none : Option Int).getD 30),
               createdAt := 0, clicks := [] })]
           analytics := [("abc12", { totalClicks := 0, uniqueClicks := 0 })] } : Store)
        0
        ({ shortcode := "abc12", originalUrl := "https://example.com",
           shortUrl := "b/abc12",
           expiresAt := calculateExpiryDate 0 ((none : Option Int).getD 30),
           createdAt := 0 } : CreateResult).shortcode =
      (some u,
        ({ urls := [("abc12",
             { id := "abc12", shortcode := "abc12",
               originalUrl := "https://example.com",
               expiresAt := calculateExpiryDate 0 ((none : Option Int).getD 30),
               createdAt := 0, clicks := [] })]
           analytics := [("abc12", { totalClicks := 0, uniqueClicks := 0 })] } : Store)) ∧
      u.originalUrl =
        ({ shortcode := "abc12", originalUrl := "https://example.com",
           shortUrl := "b/abc12",
           expiresAt := calculateExpiryDate 0 ((none : Option Int).getD 30),
           createdAt := 0 } : CreateResult).originalUrl ∧
      u.createdAt =
        ({ shortcode := "abc12", originalUrl := "https://example.com",
           shortUrl := "b/abc12",
           expiresAt := calculateExpiryDate 0 ((none : Option Int).getD 30),
           createdAt := 0 } : CreateResult).createdAt ∧
      u.expiresAt =
        ({ shortcode := "abc12", originalUrl := "https://example.com",
           shortUrl := "b/abc12",
           expiresAt := calculateExpiryDate 0 ((none : Option Int).getD 30),
           createdAt := 0 } : CreateResult).expiresAt ∧
      u.clicks = [] :=
  C8_create_then_find (fun u => some u) (fun _ => "zzz999") "b" emptyStore 0
    "https://example.com" none (some "abc12")
    { shortcode := "abc12", originalUrl := "https://example.com",
      shortUrl := "b/abc12",
      expiresAt := calculateExpiryDate 0 ((none : Option Int).getD 30),
      createdAt := 0 }
    { urls := [("abc12",
        { id := "abc12", shortcode := "abc12",
          originalUrl := "https://example.com",
          expiresAt := calculateExpiryDate 0 ((none : Option Int).getD 30),
          createdAt := 0, clicks := [] })]
      analytics := [("abc12", { totalClicks := 0, uniqueClicks := 0 })] }
    (by decide) rfl

theorem serviceCreate_fresh (normalizeUrl : String → Option String)
    (gen : Nat → String) (baseUrl : String) (s : Store) (now : Int)
    (u nu code : String) (v : Option Int)
    (hn : normalizeUrl u = some nu) (hfmt : validShortcodeFormat code = true)
    (hfresh : mapGet s.urls code = none) :
    serviceCreateShortUrl normalizeUrl gen baseUrl s now u v (some code) =
      (.ok { shortcode := code, originalUrl := nu,
             shortUrl := baseUrl ++ "/" ++ code,
             expiresAt := calculateExpiryDate now (v.getD 30), createdAt := now },
       { urls := mapSet s.urls code
           { id := code, shortcode := code, originalUrl := nu,
             expiresAt := calculateExpiryDate now (v.getD 30), createdAt := now,
             clicks := [] }
         analytics := mapSet s.analytics code { totalClicks := 0, uniqueClicks := 0 } }) := by
  have hne : code ≠ "" := validShortcodeFormat_nonempty code hfmt
  simp only [serviceCreateShortUrl, hn, Option.getD_some, hne, hfmt, ne_eq,
    not_false_eq_true, if_true, Bool.not_true, Bool.false_eq_true, if_false,
    findByShortcode_absent s now code hfresh]
  unfold Store.create
  rw [hfresh]
  rfl

/-- Claim C9: `POST /shorturls` rejects `validity = 10081` and `validity = 0`
with the controller's 400 Bad-Request validity response, accepts
`validity = 10080` (201 Created, expiry `now + 10080` minutes), and when
`validity` is omitted defaults the window to 30 minutes:
`expiresAt = createdAt + 30 * 60 * 1000` ms. -/
theorem C9_validity_bounds (normalizeUrl : String → Option String)
    (gen : Nat → String) (baseUrl : String) (s : Store) (now : Int)
    (u nu code : String)
    (hu : u ≠ "") (hn : normalizeUrl u = some nu)
    (hfmt : validShortcodeFormat code = true) (hfresh : mapGet s.urls code = none) :
    (controllerCreateShortUrl normalizeUrl gen baseUrl s now
        { url := some u, validity := some 10081, shortcode := some code }).1 =
      { status := 400, body := .errorBody "Bad Request"
          "Validity must be a positive number (in minutes) and not exceed 10080 minutes (1 week)" } ∧
    (controllerCreateShortUrl normalizeUrl gen baseUrl s now
        { url := some u, validity := some 0, shortcode := some code }).1 =
      { status := 400, body := .errorBody "Bad Request"
          "Validity must be a positive number (in minutes) and not exceed 10080 minutes (1 week)" } ∧
    (controllerCreateShortUrl normalizeUrl gen baseUrl s now
        { url := some u, validity := some 10080, shortcode := some code }).1 =
      { status := 201, body := .createdBody
          { shortcode := code, originalUrl := nu, shortUrl := baseUrl ++ "/" ++ code,
            expiresAt := calculateExpiryDate now 10080, createdAt := now } } ∧
    (controllerCreateShortUrl normalizeUrl gen baseUrl s now
        { url := some u, validity := none, shortcode := some code }).1 =
      { status := 201, body := .createdBody
          { shortcode := code, originalUrl := nu, shortUrl := baseUrl ++ "/" ++ code,
            expiresAt := calculateExpiryDate now 30, createdAt := now } } ∧
    calculateExpiryDate now 30 = now + 30 * 60 * 1000 := by
  refine ⟨?_, ?_, ?_, ?_, rfl⟩
  · simp [controllerCreateShortUrl, hu]
  · simp [controllerCreateShortUrl, hu]
  · simp [controllerCreateShortUrl, hu,
      serviceCreate_fresh normalizeUrl gen baseUrl s now u nu code (some 10080) hn hfmt hfresh]
  · simp [controllerCreateShortUrl, hu,
      serviceCreate_fresh normalizeUrl gen baseUrl s now u nu code none hn hfmt hfresh]

/-- Witness for C9 at concrete inputs (empty store, t = 0, custom code
`"abc12"`): 10081 and 0 are rejected with 400, 10080 is accepted with 201,
and the omitted-validity expiry is 30 minutes. -/
theorem C9_witness :
    (controllerCreateShortUrl (fun x => some x) (fun _ => "x") "b" emptyStore 0
        { url := some "https://example.com", validity := some 10081,
          shortcode := some "abc12" }).1 =
      { status := 400, body := .errorBody "Bad Request"
          "Validity must be a positive number (in minutes) and not exceed 10080 minutes (1 week)" } ∧
    (controllerCreateShortUrl (fun x => some x) (fun _ => "x") "b" emptyStore 0
        { url := some "https://example.com", validity := some 0,
          shortcode := some "abc12" }).1 =
      { status := 400, body := .errorBody "Bad Request"
          "Validity must be a positive number (in minutes) and not exceed 10080 minutes (1 week)" } ∧
    (controllerCreateShortUrl (fun x => some x) (fun _ => "x") "b" emptyStore 0
        { url := some "https://example.com", validity := some 10080,
          shortcode := some "abc12" }).1 =
      { status := 201, body := .createdBody
          { shortcode := "abc12", originalUrl := "https://example.com",
            shortUrl := "b" ++ "/" ++ "abc12",
            expiresAt := calculateExpiryDate 0 10080, createdAt := 0 } } ∧
    (controllerCreateShortUrl (fun x => some x) (fun _ => "x") "b" emptyStore 0
        { url := some "https://example.com", validity := none,
          shortcode := some "abc12" }).1 =
      { status := 201, body := .createdBody
          { shortcode := "abc12", originalUrl := "https://example.com",
            shortUrl := "b" ++ "/" ++ "abc12",
            expiresAt := calculateExpiryDate 0 30, createdAt := 0 } } ∧
    calculateExpiryDate 0 30 = 0 + 30 * 60 * 1000 :=
  C9_validity_bounds (fun x => some x) (fun _ => "x") "b" emptyStore 0
    "https://example.com" "https://example.com" "abc12"
    (by decide) rfl (by decide) (by decide)
